import Mathlib

/-!
# cnodes: a verification development

A shallow embedding of `main.go` of `takaishi/cnodes` (a command-line viewer of
the nodes of Consul datacenters) and theorems about it.

* `printNodes` (main.go 48-83): the status scan, the line format and the colour
  dispatch, as a function from the results of the two fetches to the sequence
  of coloured lines written and the returned error.
* `getConfigs` (main.go 22-46): the loop over the sections of the parsed ini
  file, as a function from the list of sections to the pair (map, error).
* `main` (main.go 85-107): the two invocation modes, as a function to the
  sequence of `printNodes` calls made and the fatal message, if any.

Go strings are Lean strings, Go's `error` is `Option String` (the text of
`err.Error()`, `none` for `nil`), and a function returning `(T, error)` returns
a pair. Library calls whose code is outside `main.go` (`url.Parse`, the `%q`
quoting of `fmt`, `api.DefaultConfig`) are parameters, gathered in `Env`.
-/

namespace Cnodes

/-! ## Data model -/

deriving instance DecidableEq for Except

set_option linter.dupNamespace false in
/-- The fields of `api.Node` that `printNodes` reads. -/
structure Node where
  Node : String
  Address : String
  Datacenter : String
  deriving DecidableEq, Repr

/-- The fields of `api.HealthCheck` that `printNodes` reads. -/
structure HealthCheck where
  Node : String
  Status : String
  deriving DecidableEq, Repr

/-- The colour a line is written in: `color.Green` or `color.Red`. -/
inductive Colour where
  | Green
  | Red
  deriving DecidableEq, Repr

/-- One call of `color.Green(l)` or `color.Red(l)`: the colour and the argument
`l`, the line handed to the colour library for printing. -/
structure Emitted where
  colour : Colour
  text : String
  deriving DecidableEq, Repr

/-! ## The status scan (main.go 67-72) -/

/-- One iteration of the inner loop, main.go 69-71: the status is overwritten
when the check belongs to the node and its status is not "passing". -/
def scanStep (node : Node) (status : String) (healthCheck : HealthCheck) : String :=
  if healthCheck.Node = node.Node ∧ healthCheck.Status ≠ "passing" then healthCheck.Status
  else status

/-- The inner loop, main.go 67-72: `status := "passing"`, then one `scanStep`
per health check, in list order. -/
def effectiveStatus (node : Node) (healthChecks : List HealthCheck) : String :=
  healthChecks.foldl (scanStep node) "passing"

/-! ## The line format (main.go 74) -/

/-- Padding of `fmt` for a string operand with a width: the operand is written
whole, and `width - (number of runes)` spaces are added, on the right with the
`-` flag, on the left without it. The runes of a Go string of valid UTF-8 are
the characters of the Lean string. -/
def pad (minus : Bool) (width : Nat) (s : List Char) : List Char :=
  if minus then s ++ List.replicate (width - s.length) ' '
  else List.replicate (width - s.length) ' ' ++ s

/-- Where the scan of a format string stands: in literal text, after `%` (flags
may follow), or inside the width digits. -/
inductive FmtState where
  | lit
  | flags (minus : Bool)
  | width (minus : Bool) (w : Nat)
  deriving DecidableEq, Repr

/-- The fragment of `fmt.Sprintf` used by `main.go`: literal text, `%%`, and the
verb `%s` with an optional `-` flag and an optional decimal width, applied to
string operands. A format or an operand list outside this fragment gives
`none`. -/
def sprintfGo : FmtState → List Char → List String → Option (List Char)
  | .lit, [], [] => some []
  | .lit, [], _ :: _ => none
  | .lit, c :: fmt, args =>
    if c = '%' then sprintfGo (.flags false) fmt args
    else (sprintfGo .lit fmt args).map (c :: ·)
  | .flags _, [], _ => none
  | .flags minus, c :: fmt, args =>
    if c = '-' then sprintfGo (.flags true) fmt args
    else if c = '%' then (sprintfGo .lit fmt args).map ('%' :: ·)
    else if c = 's' then
      match args with
      | [] => none
      | a :: rest => (sprintfGo .lit fmt rest).map (a.data ++ ·)
    else if c.isDigit ∧ c ≠ '0' then sprintfGo (.width minus (c.toNat - 48)) fmt args
    else none
  | .width _ _, [], _ => none
  | .width minus w, c :: fmt, args =>
    if c = 's' then
      match args with
      | [] => none
      | a :: rest => (sprintfGo .lit fmt rest).map (pad minus w a.data ++ ·)
    else if c.isDigit then sprintfGo (.width minus (10 * w + (c.toNat - 48))) fmt args
    else none

/-- The call `fmt.Sprintf(format, args...)` for string operands. -/
def Sprintf (format : String) (args : List String) : Option String :=
  (sprintfGo .lit format.data args).map String.mk

/-- The line of one node, main.go 74:
`fmt.Sprintf("%-9s %-16s %s %s\n", status, node.Address, node.Node, node.Datacenter)`. -/
def formatLine (status : String) (node : Node) : String :=
  (Sprintf "%-9s %-16s %s %s\n" [status, node.Address, node.Node, node.Datacenter]).getD ""

/-! ## The colour dispatch and the node loop (main.go 66-82) -/

/-- The `if`/`else if` of main.go 75-80: what is written for a line `l` of a
node of status `status`. There is no final `else`. -/
def emitLine (status : String) (l : String) : List Emitted :=
  if status = "passing" then [⟨Colour.Green, l⟩]
  else if status = "critical" then [⟨Colour.Red, l⟩]
  else []

/-- The body of the outer loop, main.go 67-80, for one node. -/
def printNode (healthChecks : List HealthCheck) (node : Node) : List Emitted :=
  let status := effectiveStatus node healthChecks
  let l := formatLine status node
  emitLine status l

/-- The outer loop, main.go 66-81: the nodes in catalog order. -/
def printLoop (nodes : List Node) (healthChecks : List HealthCheck) : List Emitted :=
  nodes.foldl (fun out node => out ++ printNode healthChecks node) []

/-- `errors.Wrap(err, message)`: the text of the wrapped error. -/
def Wrap (err : String) (message : String) : String :=
  message ++ ": " ++ err

/-- The function `printNodes`, main.go 48-83. The three arguments are the
outcomes of `api.NewClient`, `catalog.Nodes` and `health.State("any", ...)`;
the result is what was written and the returned error. -/
def printNodes (newClient : Option String) (catalogNodes : Except String (List Node))
    (healthState : Except String (List HealthCheck)) : List Emitted × Option String :=
  match newClient with
  | some err => ([], some (Wrap err "failed to create consul client"))
  | none =>
    match catalogNodes with
    | .error err => ([], some (Wrap err "failed to fetch consul nodes"))
    | .ok nodes =>
      match healthState with
      | .error err => ([], some (Wrap err "failed to fetch consul health states"))
      | .ok healthChecks => (printLoop nodes healthChecks, none)

/-! ## The configuration loader (main.go 22-46) -/

/-- The fields of `api.Config` that `getConfigs` writes (`Address`, `Scheme`)
and two of those it leaves as `api.DefaultConfig` set them. -/
structure Config where
  Address : String
  Scheme : String
  Datacenter : String
  Token : String
  deriving DecidableEq, Repr

/-- The zero value of `api.Config`: what indexing a Go map gives for an absent
key. -/
def Config.zero : Config := ⟨"", "", "", ""⟩

/-- The fields of `url.URL` that `getConfigs` reads. -/
structure URL where
  Scheme : String
  Host : String
  deriving DecidableEq, Repr

/-- One section of the parsed ini file: its name and its keys, each with the
value `String()` returns for it. -/
structure Section where
  Name : String
  keys : List (String × String)
  deriving DecidableEq, Repr

/-- The names under which go-ini looks for a parent of the section `name`: the
part of the name before each dot, from the last dot to the first (`dc1.eu.west`
gives `dc1.eu`, then `dc1`). -/
def parentNames (name : List Char) : List (List Char) :=
  (((List.range name.length).reverse).filter (fun i => name[i]? = some '.')).map
    (fun i => name.take i)

/-- The call `f.GetSection(name)` of go-ini on the sections of the file: the
section of that name, the empty name standing for the section `DEFAULT`. -/
def GetSection (file : List Section) (name : String) : Option Section :=
  file.find? (fun s => s.Name = (if name = "" then "DEFAULT" else name))

/-- The call `sec.GetKey(name)` of go-ini, `file` being the sections of the file
`sec` belongs to: the value the section holds under the key; when it holds
none, the value held by the nearest section, among those named by
`parentNames`, that exists and holds the key ("Check if it is a
child-section"); `none` when there is no such section. -/
def Section.GetKey (sec : Section) (file : List Section) (name : String) : Option String :=
  match sec.keys.lookup name with
  | some v => some v
  | none =>
    (parentNames sec.Name.data).findSome? (fun p =>
      match GetSection file (String.mk p) with
      | some parent => parent.keys.lookup name
      | none => none)

/-- The value `sec.Key(name).String()`: the value found by `GetKey`, and the
empty string when there is none (go-ini: "Key assumes named Key exists in
section and returns a zero-value when not"). -/
def Section.Key (sec : Section) (file : List Section) (name : String) : String :=
  match sec.GetKey file name with
  | some v => v
  | none => ""

/-- A Go `map[string]api.Config`, as the list of its entries; `mapSet` keeps
the keys distinct. -/
abbrev ConfigMap := List (String × Config)

/-- The assignment `m[k] = v`: the entry of `k` is replaced when there is one,
and added otherwise. -/
def mapSet : ConfigMap → String → Config → ConfigMap
  | [], k, v => [(k, v)]
  | (k', v') :: m, k, v => if k' = k then (k, v) :: m else (k', v') :: mapSet m k v

/-- The two-valued lookup `v, ok := m[k]`. -/
def mapFind (m : ConfigMap) (k : String) : Option Config :=
  m.lookup k

/-- The expression `m[k]`: the stored value, or the zero value when the key is
absent. -/
def mapGet (m : ConfigMap) (k : String) : Config :=
  match mapFind m k with
  | some v => v
  | none => Config.zero

/-- What `getConfigs` takes from outside `main.go`: the value of `$HOME`,
`ioutil.ReadFile` (file name to contents), `ini.Load` followed by `Sections()`
(contents to sections, in file order), `url.Parse`, the `%q` quoting of `fmt`,
and the value of `api.DefaultConfig()`. A failing call gives the text of its
error. -/
structure Env where
  Home : String
  ReadFile : String → Except String String
  Load : String → Except String (List Section)
  Parse : String → Except String URL
  Quote : String → String
  DefaultConfig : Config

/-- The descriptor stored for a section whose url parsed to `u`, main.go 34 and
41-42: the default configuration with `Address` and `Scheme` overwritten. -/
def descriptor (env : Env) (u : URL) : Config :=
  { env.DefaultConfig with Address := u.Host, Scheme := u.Scheme }

/-- The loop of main.go 33-45 over the sections not yet visited, `file` being
all the sections of the parsed file and `configs` the map built so far. The
map is returned along with the error. -/
def getConfigsLoop (env : Env) (file : List Section) :
    List Section → ConfigMap → ConfigMap × Option String
  | [], configs => (configs, none)
  | sec :: rest, configs =>
    let apiConfig := env.DefaultConfig
    let consulURL := sec.Key file "url"
    match env.Parse consulURL with
    | .error err =>
      (configs, some (Wrap err ("failed to parse consulURL " ++ env.Quote consulURL)))
    | .ok u =>
      getConfigsLoop env file rest
        (mapSet configs sec.Name { apiConfig with Address := u.Host, Scheme := u.Scheme })

/-- Lines 33-45 of `getConfigs`, from the sections of the parsed file: the loop
started on the empty map. -/
def getConfigsSections (env : Env) (sections : List Section) : ConfigMap × Option String :=
  getConfigsLoop env sections sections []

/-- The function `getConfigs`, main.go 22-46. -/
def getConfigs (env : Env) : ConfigMap × Option String :=
  let f := env.Home ++ "/.cnodes"
  match env.ReadFile f with
  | .error err => ([], some (Wrap err ("failed to read " ++ env.Quote f)))
  | .ok data =>
    match env.Load data with
    | .error err => ([], some (Wrap err ("failed to load " ++ env.Quote f)))
    | .ok sections => getConfigsSections env sections

/-! ## The two invocation modes (main.go 85-107) -/

/-- The command line flags, main.go 17-20. -/
structure Options where
  Profile : String
  All : Bool
  deriving DecidableEq, Repr

/-- What a run of `main` did: the calls of `printNodes` in order, each with the
error it returned, and the message of `log.Fatalln` when the run ended there
(exit status 1), `none` when `main` returned (exit status 0). -/
@[ext]
structure Run where
  calls : List (Config × Option String)
  fatal : Option String
  deriving DecidableEq, Repr

/-- The loop of main.go 98-100 over the entries still to visit; `i` counts the
calls of `printNodes` made so far. The error of each call is dropped. -/
def rangeAll (report : Nat → Config → Option String) :
    List (String × Config) → Nat → List (Config × Option String)
  | [], _ => []
  | (_, cfg) :: rest, i => (cfg, report i cfg) :: rangeAll report rest (i + 1)

/-- The function `main`, main.go 85-107. `flagsParse` is the outcome of
`flags.Parse`, `order` the sequence in which `range configs` visits the entries
of the map (Go leaves it unspecified: some permutation of the entries), and
`report i cfg` the error returned by the call of `printNodes` on `cfg` that is
the `i`-th call of the run, counting from 0. -/
def main (flagsParse : Except String Options) (env : Env)
    (order : ConfigMap → List (String × Config))
    (report : Nat → Config → Option String) : Run :=
  match flagsParse with
  | .error err => ⟨[], some err⟩
  | .ok opts =>
    match getConfigs env with
    | (_, some err) => ⟨[], some err⟩
    | (configs, none) =>
      if opts.All then
        ⟨rangeAll report (order configs) 0, none⟩
      else
        let cfg := mapGet configs opts.Profile
        match report 0 cfg with
        | some err => ⟨[(cfg, some err)], some err⟩
        | none => ⟨[(cfg, none)], none⟩

/-! ## A concrete environment for the examples

The theorems below hold for every `Env`. The closed examples are evaluated in
`goEnv`, whose `Parse` and `Quote` follow the Go standard library on the part of
their domain described in their comments. -/

/-- The function `getScheme` of `net/url` on the characters not yet read, `i`
being the number of characters read and `seen` those characters in reverse:
the scheme and the rest, or the error "missing protocol scheme". -/
def getScheme (rawURL : List Char) : List Char → Nat → List Char →
    Except String (List Char × List Char)
  | [], _, _ => .ok ([], rawURL)
  | c :: cs, i, seen =>
    if c.isAlpha then getScheme rawURL cs (i + 1) (c :: seen)
    else if c.isDigit ∨ c = '+' ∨ c = '-' ∨ c = '.' then
      if i = 0 then .ok ([], rawURL) else getScheme rawURL cs (i + 1) (c :: seen)
    else if c = ':' then
      if i = 0 then .error "missing protocol scheme" else .ok (seen.reverse, cs)
    else .ok ([], rawURL)

/-- The part of `s` before the first `sep`, or all of `s` when there is none. -/
def cutBefore (sep : Char) (s : List Char) : List Char :=
  s.takeWhile (· ≠ sep)

/-- The part of `s` after the last `sep`, or all of `s` when there is none. -/
def afterLast (sep : Char) (s : List Char) : List Char :=
  (s.reverse.takeWhile (· ≠ sep)).reverse

/-- The function `parse` of `net/url` (with `viaRequest` false), for the fields
`Scheme` and `Host`: the control-character check, the `*` form, `getScheme`,
the lower-casing of the scheme, the query cut, the opaque form, the colon check
of a relative path, and the authority between `//` and the next `/`, of which
the host is what follows the last `@`. The validation of the user
information, of the host and of the port, and percent-decoding, are not
modelled: the examples use none of them. -/
def urlParseCore (rawURL : List Char) : Except String URL :=
  if rawURL.any (fun c => c.toNat < 32 ∨ c.toNat = 127) then
    .error "net/url: invalid control character in URL"
  else if rawURL = ['*'] then .ok ⟨"", ""⟩
  else
    match getScheme rawURL rawURL 0 [] with
    | .error err => .error err
    | .ok (scheme, rest0) =>
      let scheme := scheme.map Char.toLower
      let rest := cutBefore '?' rest0
      if rest.head? ≠ some '/' ∧ scheme ≠ [] then .ok ⟨String.mk scheme, ""⟩
      else if rest.head? ≠ some '/' ∧ ':' ∈ cutBefore '/' rest then
        .error "first path segment in URL cannot contain colon"
      else if (scheme ≠ [] ∨ rest.take 3 ≠ ['/', '/', '/']) ∧ rest.take 2 = ['/', '/'] then
        let authority := cutBefore '/' (rest.drop 2)
        .ok ⟨String.mk scheme, String.mk (afterLast '@' authority)⟩
      else .ok ⟨String.mk scheme, ""⟩

/-- The double quote character. -/
def dquote : Char := Char.ofNat 34

/-- The quoting of `strconv.Quote`, which is the verb `%q` of `fmt` for a
string: the text between double quotes, with a backslash before a double quote
and a backslash and the short escapes for the seven characters that have one.
Every other character is copied, as Go does for a printable one. -/
def strconvQuote (s : String) : String :=
  String.mk (dquote :: (s.data.foldr (fun c out =>
    if c = dquote then '\\' :: dquote :: out
    else if c = '\\' then '\\' :: '\\' :: out
    else if c = '\n' then '\\' :: 'n' :: out
    else if c = '\t' then '\\' :: 't' :: out
    else if c = '\r' then '\\' :: 'r' :: out
    else if c.toNat = 7 then '\\' :: 'a' :: out
    else if c.toNat = 8 then '\\' :: 'b' :: out
    else if c.toNat = 12 then '\\' :: 'f' :: out
    else if c.toNat = 11 then '\\' :: 'v' :: out
    else c :: out) [dquote]))

/-- The function `url.Parse`: the fragment after the first `#` is cut off, and
an error of `parse` is wrapped as `parse "<url>": <error>`. -/
def urlParse (rawURL : String) : Except String URL :=
  let u := cutBefore '#' rawURL.data
  match urlParseCore u with
  | .error err => .error ("parse " ++ strconvQuote (String.mk u) ++ ": " ++ err)
  | .ok url => .ok url

/-- An environment for the examples: `Parse` and `Quote` as above, the default
configuration of the Consul client without environment overrides, and a file
system whose only file is `/home/u/.cnodes`, parsed into `sections`. -/
def goEnv (sections : List Section) : Env where
  Home := "/home/u"
  ReadFile := fun f =>
    if f = "/home/u/.cnodes" then .ok "" else .error ("open " ++ f ++ ": no such file or directory")
  Load := fun _ => .ok sections
  Parse := urlParse
  Quote := strconvQuote
  DefaultConfig := ⟨"127.0.0.1:8500", "http", "", ""⟩

/-! ## The worst status, as the specification words it -/

/-- The severity order of the specification: critical is worse than warning,
which is worse than passing (and than any other text). -/
def severity (status : String) : Nat :=
  if status = "critical" then 2 else if status = "warning" then 1 else 0

/-- The specification's "worst observed status" of a node: the most severe
status found among the checks carrying the node's name, and "passing" when
there are none. -/
def worstStatus (node : Node) (healthChecks : List HealthCheck) : String :=
  (healthChecks.filter (fun hc => hc.Node = node.Node)).foldl
    (fun worst hc => if severity worst < severity hc.Status then hc.Status else worst) "passing"

/-- The three statuses of a Consul health check. -/
def knownStatus (status : String) : Prop :=
  status = "passing" ∨ status = "warning" ∨ status = "critical"

instance (status : String) : Decidable (knownStatus status) := by
  unfold knownStatus; infer_instance

/-! ## The line, as the specification words it -/

/-- A text left-justified and space-padded to at least `width` characters. -/
def leftJustify (width : Nat) (s : String) : String :=
  s ++ String.mk (List.replicate (width - s.length) ' ')

/-- The specification's line of a node: the status left-justified to at least 9
characters, the address left-justified to at least 16, the node name and the
datacenter, separated by one space and ended by a newline. -/
def lineSpec (status address name datacenter : String) : String :=
  leftJustify 9 status ++ " " ++ leftJustify 16 address ++ " " ++ name ++ " " ++ datacenter ++ "\n"

/-! ## The library models on the inputs of the examples -/

example : parentNames "dc1.eu.west".data = ["dc1.eu".data, "dc1".data] := by decide
example : parentNames "dc1".data = [] := by decide
example : (⟨"dc1.eu", []⟩ : Section).Key
    [⟨"dc1", [("url", "http://c1:8500")]⟩, ⟨"dc1.eu", []⟩] "url" = "http://c1:8500" := by decide
example : (⟨".x", []⟩ : Section).Key [⟨"DEFAULT", [("url", "http://d:8500")]⟩, ⟨".x", []⟩] "url" =
    "http://d:8500" := by decide
example : urlParse "" = .ok ⟨"", ""⟩ := by decide
example : urlParse "http://consul-dc1.example.com:8500" = .ok ⟨"http", "consul-dc1.example.com:8500"⟩ := by
  decide
example : urlParse "::::not a url" = .error "parse \"::::not a url\": missing protocol scheme" := by
  decide
example : urlParse "10.0.0.1:8500" = .error "parse \"10.0.0.1:8500\": first path segment in URL cannot contain colon" := by
  decide
example : urlParse "localhost:8500" = .ok ⟨"localhost", ""⟩ := by
  decide
example : getConfigs (goEnv [⟨"DEFAULT", []⟩, ⟨"dc1", [("url", "https://c1:8501/")]⟩]) =
    ([("DEFAULT", ⟨"", "", "", ""⟩), ("dc1", ⟨"c1:8501", "https", "", ""⟩)], none) := by
  decide

/-! ## Lemmas on the status scan -/

theorem effectiveStatus_snoc (node : Node) (l : List HealthCheck) (x : HealthCheck) :
    effectiveStatus node (l ++ [x]) = scanStep node (effectiveStatus node l) x := by
  simp [effectiveStatus, List.foldl_append]

theorem scan_unchanged (node : Node) (l : List HealthCheck) (status : String)
    (h : ∀ x ∈ l, ¬(x.Node = node.Node ∧ x.Status ≠ "passing")) :
    l.foldl (scanStep node) status = status := by
  induction l generalizing status with
  | nil => rfl
  | cons x l ih =>
    have hx : scanStep node status x = status := by
      unfold scanStep
      rw [if_neg (h x (List.mem_cons_self x l))]
    rw [List.foldl_cons, hx]
    exact ih status (fun y hy => h y (List.mem_cons_of_mem x hy))

theorem worstStatus_snoc (node : Node) (l : List HealthCheck) (x : HealthCheck) :
    worstStatus node (l ++ [x]) =
      if x.Node = node.Node then
        (if severity (worstStatus node l) < severity x.Status then x.Status
          else worstStatus node l)
      else worstStatus node l := by
  by_cases hx : x.Node = node.Node <;> simp [worstStatus, List.filter_append, List.foldl_append, hx]

theorem worstStatus_mem (node : Node) (l : List HealthCheck) :
    worstStatus node l = "passing" ∨
      ∃ hc ∈ l, hc.Node = node.Node ∧ hc.Status = worstStatus node l := by
  induction l using List.reverseRecOn with
  | nil => left; rfl
  | append_singleton l x ih =>
    rw [worstStatus_snoc]
    by_cases hx : x.Node = node.Node
    · rw [if_pos hx]
      by_cases hs : severity (worstStatus node l) < severity x.Status
      · rw [if_pos hs]
        right
        exact ⟨x, by simp, hx, rfl⟩
      · rw [if_neg hs]
        rcases ih with ih | ⟨hc, hm, hn, he⟩
        · left; exact ih
        · right; exact ⟨hc, by simp [hm], hn, he⟩
    · rw [if_neg hx]
      rcases ih with ih | ⟨hc, hm, hn, he⟩
      · left; exact ih
      · right; exact ⟨hc, by simp [hm], hn, he⟩

/-! ## Theorems on the status scan -/

/-- C1: the status computed for a node is "passing" when no check has both the
node's name and a status other than "passing" (so also for an empty list of
checks); otherwise it is the status of the last check, in list order, that has
the node's name and a status other than "passing": whatever comes after that
check (checks of other nodes, "passing" checks) does not change it. -/
theorem effectiveStatus_last_nonpassing (node : Node) (healthChecks : List HealthCheck) :
    ((∀ hc ∈ healthChecks, ¬(hc.Node = node.Node ∧ hc.Status ≠ "passing")) →
        effectiveStatus node healthChecks = "passing") ∧
    (∀ (before after : List HealthCheck) (hc : HealthCheck),
        healthChecks = before ++ hc :: after →
        hc.Node = node.Node → hc.Status ≠ "passing" →
        (∀ x ∈ after, ¬(x.Node = node.Node ∧ x.Status ≠ "passing")) →
        effectiveStatus node healthChecks = hc.Status) := by
  constructor
  · intro h
    exact scan_unchanged node healthChecks "passing" h
  · intro before after hc heq hn hs hafter
    subst heq
    have hstep : scanStep node (List.foldl (scanStep node) "passing" before) hc = hc.Status := by
      unfold scanStep
      rw [if_pos ⟨hn, hs⟩]
    unfold effectiveStatus
    rw [List.foldl_append, List.foldl_cons, hstep]
    exact scan_unchanged node after hc.Status hafter

/-- Witness of C1: a node whose last non-passing check is "warning", followed
by a passing check of its own and a critical check of another node. -/
theorem effectiveStatus_last_nonpassing_witness :
    effectiveStatus ⟨"n1", "10.0.0.1", "dc1"⟩
        [⟨"n1", "critical"⟩, ⟨"n1", "warning"⟩, ⟨"n1", "passing"⟩, ⟨"n2", "critical"⟩] = "warning" ∧
      effectiveStatus ⟨"n1", "10.0.0.1", "dc1"⟩ [⟨"n2", "critical"⟩, ⟨"n1", "passing"⟩] = "passing" :=
  ⟨(effectiveStatus_last_nonpassing ⟨"n1", "10.0.0.1", "dc1"⟩
      [⟨"n1", "critical"⟩, ⟨"n1", "warning"⟩, ⟨"n1", "passing"⟩, ⟨"n2", "critical"⟩]).2
      [⟨"n1", "critical"⟩] [⟨"n1", "passing"⟩, ⟨"n2", "critical"⟩] ⟨"n1", "warning"⟩
      rfl rfl (by decide) (by decide),
   (effectiveStatus_last_nonpassing ⟨"n1", "10.0.0.1", "dc1"⟩
      [⟨"n2", "critical"⟩, ⟨"n1", "passing"⟩]).1 (by decide)⟩

/-- Counterexample to C2: for the checks critical then warning of one node,
all of known status, the computed status is "warning" while the most severe
status among the node's checks is "critical". -/
theorem effectiveStatus_not_worst :
    (∀ hc ∈ [(⟨"n1", "critical"⟩ : HealthCheck), ⟨"n1", "warning"⟩], knownStatus hc.Status) ∧
      effectiveStatus ⟨"n1", "10.0.0.1", "dc1"⟩ [⟨"n1", "critical"⟩, ⟨"n1", "warning"⟩] = "warning" ∧
      worstStatus ⟨"n1", "10.0.0.1", "dc1"⟩ [⟨"n1", "critical"⟩, ⟨"n1", "warning"⟩] = "critical" ∧
      effectiveStatus ⟨"n1", "10.0.0.1", "dc1"⟩ [⟨"n1", "critical"⟩, ⟨"n1", "warning"⟩] ≠
        worstStatus ⟨"n1", "10.0.0.1", "dc1"⟩ [⟨"n1", "critical"⟩, ⟨"n1", "warning"⟩] := by
  decide

/-- C2, amended: when every check has one of the three known statuses and no
critical check of the node is followed, anywhere later in the list, by a
warning check of the same node, the status computed for the node is the most
severe status among the checks carrying its name, and "passing" when there are
none. -/
theorem effectiveStatus_eq_worst (node : Node) (healthChecks : List HealthCheck)
    (hknown : ∀ hc ∈ healthChecks, knownStatus hc.Status)
    (horder : healthChecks.Pairwise (fun a b =>
      ¬(a.Node = node.Node ∧ a.Status = "critical" ∧ b.Node = node.Node ∧ b.Status = "warning"))) :
    effectiveStatus node healthChecks = worstStatus node healthChecks := by
  induction healthChecks using List.reverseRecOn with
  | nil => rfl
  | append_singleton l x ih =>
    have hl : ∀ hc ∈ l, knownStatus hc.Status := fun hc hm => hknown hc (by simp [hm])
    have hx : knownStatus x.Status := hknown x (by simp)
    rw [List.pairwise_append] at horder
    obtain ⟨hpl, -, hcross⟩ := horder
    have ihl := ih hl hpl
    rw [effectiveStatus_snoc, worstStatus_snoc, ihl]
    unfold scanStep
    by_cases hn : x.Node = node.Node
    · rw [if_pos hn]
      rcases hx with hp | hw | hc
      · have h0 : severity x.Status = 0 := by rw [hp]; decide
        have : ¬(x.Node = node.Node ∧ x.Status ≠ "passing") := fun h => h.2 hp
        rw [if_neg this, h0, if_neg (Nat.not_lt_zero _)]
      · have h1 : severity x.Status = 1 := by rw [hw]; decide
        have hne : x.Status ≠ "passing" := by rw [hw]; decide
        rw [if_pos ⟨hn, hne⟩]
        rcases worstStatus_mem node l with hwp | ⟨c, hcm, hcn, hce⟩
        · have : severity (worstStatus node l) < severity x.Status := by
            rw [hwp, h1]; decide
          rw [if_pos this]
        · rcases hl c hcm with h | h | h
          · have : severity (worstStatus node l) < severity x.Status := by
              rw [← hce, h, h1]; decide
            rw [if_pos this]
          · have : ¬ severity (worstStatus node l) < severity x.Status := by
              rw [← hce, h, h1]; decide
            rw [if_neg this, ← hce, h, hw]
          · exact absurd ⟨hcn, h, hn, hw⟩ (hcross c hcm x (by simp))
      · have h2 : severity x.Status = 2 := by rw [hc]; decide
        have hne : x.Status ≠ "passing" := by rw [hc]; decide
        rw [if_pos ⟨hn, hne⟩]
        by_cases hlt : severity (worstStatus node l) < severity x.Status
        · rw [if_pos hlt]
        · rw [if_neg hlt]
          rcases worstStatus_mem node l with hwp | ⟨c, hcm, -, hce⟩
          · exact absurd (by rw [hwp, h2]; decide) hlt
          · rcases hl c hcm with h | h | h
            · exact absurd (by rw [← hce, h, h2]; decide) hlt
            · exact absurd (by rw [← hce, h, h2]; decide) hlt
            · rw [← hce, h, hc]
    · have : ¬(x.Node = node.Node ∧ x.Status ≠ "passing") := fun h => hn h.1
      rw [if_neg this, if_neg hn]

/-- Witness of C2, amended: warning then critical, the order in which the scan
and the severity ranking agree. -/
theorem effectiveStatus_eq_worst_witness :
    effectiveStatus ⟨"n1", "10.0.0.1", "dc1"⟩
        [⟨"n1", "warning"⟩, ⟨"n2", "passing"⟩, ⟨"n1", "critical"⟩] =
      worstStatus ⟨"n1", "10.0.0.1", "dc1"⟩
        [⟨"n1", "warning"⟩, ⟨"n2", "passing"⟩, ⟨"n1", "critical"⟩] :=
  effectiveStatus_eq_worst ⟨"n1", "10.0.0.1", "dc1"⟩
    [⟨"n1", "warning"⟩, ⟨"n2", "passing"⟩, ⟨"n1", "critical"⟩] (by decide) (by decide)

/-! ## Theorems on the line format and the node loop -/

theorem leftJustify_length (width : Nat) (s : String) :
    (leftJustify width s).length = max width s.length := by
  simp only [leftJustify, String.length, String.data_append, List.length_append,
    List.length_replicate]
  omega

theorem leftJustify_starts (width : Nat) (s : String) :
    s.data <+: (leftJustify width s).data := by
  simp [leftJustify, String.data_append]

/-- C10: the line of a node is the status left-justified and space-padded to at
least 9 characters, one space, the address left-justified and space-padded to
at least 16 characters, one space, the node name, one space, the datacenter and
a newline; the status column is max(9, length of the status) characters long
and starts with the whole status, the address column max(16, length of the
address) characters long and starts with the whole address: nothing is cut. -/
theorem formatLine_eq_lineSpec (status : String) (node : Node) :
    Sprintf "%-9s %-16s %s %s\n" [status, node.Address, node.Node, node.Datacenter] =
        some (lineSpec status node.Address node.Node node.Datacenter) ∧
      formatLine status node = lineSpec status node.Address node.Node node.Datacenter ∧
      (leftJustify 9 status).length = max 9 status.length ∧
      status.data <+: (leftJustify 9 status).data ∧
      (leftJustify 16 node.Address).length = max 16 node.Address.length ∧
      node.Address.data <+: (leftJustify 16 node.Address).data := by
  have hs : Sprintf "%-9s %-16s %s %s\n" [status, node.Address, node.Node, node.Datacenter] =
      some (lineSpec status node.Address node.Node node.Datacenter) := by
    have hl : Sprintf "%-9s %-16s %s %s\n" [status, node.Address, node.Node, node.Datacenter] =
        some (String.mk (pad true 9 status.data ++ ' ' :: (pad true 16 node.Address.data ++ ' ' ::
          (node.Node.data ++ ' ' :: (node.Datacenter.data ++ ['\n']))))) := rfl
    rw [hl]
    congr 1
    apply String.ext
    have hsp : (" " : String).data = [' '] := rfl
    have hnl : ("\n" : String).data = ['\n'] := rfl
    simp only [lineSpec, leftJustify, pad, String.data_append, String.length, hsp, hnl,
      if_true, List.append_assoc, List.cons_append, List.nil_append]
  refine ⟨hs, ?_, leftJustify_length 9 status, leftJustify_starts 9 status,
    leftJustify_length 16 node.Address, leftJustify_starts 16 node.Address⟩
  unfold formatLine
  rw [hs]
  rfl

theorem printLoop_eq_flatMap (nodes : List Node) (healthChecks : List HealthCheck) :
    printLoop nodes healthChecks = (nodes.map (printNode healthChecks)).flatten := by
  have h : ∀ (l : List Node) (out : List Emitted),
      l.foldl (fun out node => out ++ printNode healthChecks node) out =
        out ++ (l.map (printNode healthChecks)).flatten := by
    intro l
    induction l with
    | nil => intro out; simp
    | cons n l ih => intro out; simp [ih]
  simpa [printLoop] using h nodes []

/-- C3, the code at the failing input: for a node whose only check is
"warning" the status is "warning", the line is formatted, and `printNodes`
returns without an error having written nothing; the same for "unknown". -/
theorem printNodes_warning_writes_nothing :
    effectiveStatus ⟨"n1", "10.0.0.1", "dc1"⟩ [⟨"n1", "warning"⟩] = "warning" ∧
      formatLine "warning" ⟨"n1", "10.0.0.1", "dc1"⟩ = "warning   10.0.0.1         n1 dc1\n" ∧
      printNodes none (.ok [⟨"n1", "10.0.0.1", "dc1"⟩]) (.ok [⟨"n1", "warning"⟩]) = ([], none) ∧
      printNodes none (.ok [⟨"n1", "10.0.0.1", "dc1"⟩]) (.ok [⟨"n1", "unknown"⟩]) = ([], none) := by
  decide

/-- C4, the code at the failing input: for a catalog of three nodes of status
passing, warning and critical, `printNodes` writes two lines, those of the
first and of the third node. -/
theorem printNodes_skips_warning_node :
    printNodes none
        (.ok [⟨"n1", "10.0.0.1", "dc1"⟩, ⟨"n2", "10.0.0.2", "dc1"⟩, ⟨"n3", "10.0.0.3", "dc1"⟩])
        (.ok [⟨"n1", "passing"⟩, ⟨"n2", "warning"⟩, ⟨"n3", "critical"⟩]) =
      ([⟨Colour.Green, "passing   10.0.0.1         n1 dc1\n"⟩,
        ⟨Colour.Red, "critical  10.0.0.3         n3 dc1\n"⟩], none) := by
  decide

/-- What the loop of `printNodes` writes: in catalog order, the line of each
node whose status is "passing" (in green) or "critical" (in red), and nothing
for a node of any other status. -/
theorem printNodes_output (nodes : List Node) (healthChecks : List HealthCheck) :
    printNodes none (.ok nodes) (.ok healthChecks) =
      (((nodes.filter (fun n => effectiveStatus n healthChecks = "passing" ∨
            effectiveStatus n healthChecks = "critical")).map
          (fun n => (⟨if effectiveStatus n healthChecks = "passing" then Colour.Green else Colour.Red,
            formatLine (effectiveStatus n healthChecks) n⟩ : Emitted))), none) := by
  unfold printNodes
  simp only [Prod.mk.injEq, and_true]
  rw [printLoop_eq_flatMap]
  induction nodes with
  | nil => rfl
  | cons n l ih =>
    rw [List.map_cons, List.flatten_cons, ih]
    by_cases hp : effectiveStatus n healthChecks = "passing"
    · simp [printNode, emitLine, hp, List.filter_cons]
    · by_cases hc : effectiveStatus n healthChecks = "critical"
      · simp [printNode, emitLine, hp, hc, List.filter_cons]
      · simp [printNode, emitLine, hp, hc, List.filter_cons]

/-! ## Lemmas on the map and the section loop -/

theorem mapSet_of_not_mem (m : ConfigMap) (k : String) (v : Config)
    (h : k ∉ m.map Prod.fst) : mapSet m k v = m ++ [(k, v)] := by
  induction m with
  | nil => rfl
  | cons e m ih =>
    obtain ⟨k', v'⟩ := e
    simp only [List.map_cons, List.mem_cons, not_or] at h
    have hne : ¬ k' = k := fun hk => h.1 hk.symm
    simp only [mapSet, if_neg hne, ih h.2, List.cons_append]

theorem getConfigsLoop_ok (env : Env) (file : List Section) (parsed : List (Section × URL)) (configs : ConfigMap)
    (hparse : ∀ e ∈ parsed, env.Parse (e.1.Key file "url") = .ok e.2)
    (hnodup : (configs.map Prod.fst ++ parsed.map (fun e => e.1.Name)).Nodup) :
    getConfigsLoop env file (parsed.map Prod.fst) configs =
      (configs ++ parsed.map (fun e => (e.1.Name, descriptor env e.2)), none) := by
  induction parsed generalizing configs with
  | nil => simp [getConfigsLoop]
  | cons e l ih =>
    have he := hparse e (List.mem_cons_self e l)
    have hnot : e.1.Name ∉ configs.map Prod.fst := by
      intro hm
      rw [List.nodup_append] at hnodup
      exact hnodup.2.2 hm (by simp)
    rw [List.map_cons]
    unfold getConfigsLoop
    simp only [he]
    rw [mapSet_of_not_mem configs _ _ hnot]
    have hnd : (((configs ++ [(e.1.Name, descriptor env e.2)]).map Prod.fst) ++
        l.map (fun e => e.1.Name)).Nodup := by
      simpa [List.map_append, List.append_assoc] using hnodup
    have := ih (configs ++ [(e.1.Name, descriptor env e.2)])
      (fun x hx => hparse x (List.mem_cons_of_mem e hx)) hnd
    simpa [descriptor, List.append_assoc] using this

/-- Every section of a list whose urls all parse comes with its parsed url. -/
theorem exists_parsed (env : Env) (file sections : List Section)
    (hvalid : ∀ s ∈ sections, ∃ u, env.Parse (s.Key file "url") = .ok u) :
    ∃ parsed : List (Section × URL), parsed.map Prod.fst = sections ∧
      ∀ e ∈ parsed, env.Parse (e.1.Key file "url") = .ok e.2 := by
  induction sections with
  | nil => exact ⟨[], rfl, by simp⟩
  | cons s l ih =>
    obtain ⟨u, hu⟩ := hvalid s (List.mem_cons_self s l)
    obtain ⟨parsed, hp, hq⟩ := ih (fun t ht => hvalid t (List.mem_cons_of_mem s ht))
    refine ⟨(s, u) :: parsed, by simp [hp], ?_⟩
    intro e he
    rcases List.mem_cons.1 he with h | h
    · rw [h]; exact hu
    · exact hq e h

theorem lookup_of_nodup (parsed : List (Section × URL)) (f : URL → Config)
    (hnodup : (parsed.map (fun e => e.1.Name)).Nodup) (e : Section × URL) (he : e ∈ parsed) :
    (parsed.map (fun e => (e.1.Name, f e.2))).lookup e.1.Name = some (f e.2) := by
  induction parsed with
  | nil => simp at he
  | cons x l ih =>
    rw [List.map_cons, List.nodup_cons] at hnodup
    rcases List.mem_cons.1 he with h | h
    · subst h
      simp [List.lookup]
    · have hne : ¬ e.1.Name = x.1.Name := by
        intro heq
        apply hnodup.1
        rw [← heq]
        exact List.mem_map_of_mem (fun e => e.1.Name) h
      have hb : (e.1.Name == x.1.Name) = false := by simpa using hne
      rw [List.map_cons, List.lookup_cons, hb]
      exact ih hnodup.2 h

theorem getConfigsSections_ok (env : Env) (sections : List Section)
    (hnodup : (sections.map Section.Name).Nodup)
    (hvalid : ∀ s ∈ sections, ∃ u, env.Parse (s.Key sections "url") = .ok u) :
    (getConfigsSections env sections).2 = none ∧
      (getConfigsSections env sections).1.length = sections.length ∧
      (getConfigsSections env sections).1.map Prod.fst = sections.map Section.Name ∧
      ∀ s ∈ sections, ∀ u, env.Parse (s.Key sections "url") = .ok u →
        mapFind (getConfigsSections env sections).1 s.Name = some (descriptor env u) := by
  obtain ⟨parsed, hp, hq⟩ := exists_parsed env sections sections hvalid
  subst hp
  have hnd : (parsed.map (fun e => e.1.Name)).Nodup := by
    simpa [List.map_map, Function.comp_def] using hnodup
  have hloop := getConfigsLoop_ok env (parsed.map Prod.fst) parsed [] hq (by simpa using hnd)
  unfold getConfigsSections
  rw [hloop]
  refine ⟨rfl, by simp, by simp [List.map_map, Function.comp_def], ?_⟩
  intro s hs u hu
  obtain ⟨e, he, hes⟩ := List.mem_map.1 hs
  have hue : e.2 = u := by
    have h1 := hq e he
    rw [hes, hu] at h1
    exact (Except.ok.inj h1).symm
  have := lookup_of_nodup parsed (descriptor env) hnd e he
  simp only [mapFind, List.nil_append]
  rw [← hes, ← hue]
  exact this

theorem getConfigsLoop_error (env : Env) (file before after : List Section) (s : Section)
    (err : String) (configs : ConfigMap)
    (hbefore : ∀ t ∈ before, ∃ u, env.Parse (t.Key file "url") = .ok u)
    (hs : env.Parse (s.Key file "url") = .error err) :
    (getConfigsLoop env file (before ++ s :: after) configs).2 =
      some ("failed to parse consulURL " ++ env.Quote (s.Key file "url") ++ ": " ++ err) := by
  induction before generalizing configs with
  | nil =>
    rw [List.nil_append]
    unfold getConfigsLoop
    simp only [hs, Wrap]
  | cons t l ih =>
    obtain ⟨u, hu⟩ := hbefore t (List.mem_cons_self t l)
    rw [List.cons_append]
    unfold getConfigsLoop
    simp only [hu]
    exact ih _ (fun x hx => hbefore x (List.mem_cons_of_mem t hx))

/-- A list with an element whose url fails to parse splits at the first one. -/
theorem exists_first_invalid (env : Env) (file sections : List Section)
    (h : ∃ s ∈ sections, ∃ err, env.Parse (s.Key file "url") = .error err) :
    ∃ before s after err, sections = before ++ s :: after ∧
      (∀ t ∈ before, ∃ u, env.Parse (t.Key file "url") = .ok u) ∧
      env.Parse (s.Key file "url") = .error err := by
  induction sections with
  | nil => obtain ⟨s, hs, -⟩ := h; simp at hs
  | cons x l ih =>
    cases hx : env.Parse (x.Key file "url") with
    | error err => exact ⟨[], x, l, err, rfl, by simp, hx⟩
    | ok u =>
      obtain ⟨s, hs, err, herr⟩ := h
      have hsl : s ∈ l := by
        rcases List.mem_cons.1 hs with h1 | h1
        · rw [h1, hx] at herr; cases herr
        · exact h1
      obtain ⟨before, s', after, err', heq, hb, he⟩ := ih ⟨s, hsl, err, herr⟩
      refine ⟨x :: before, s', after, err', by rw [heq]; rfl, ?_, he⟩
      intro t ht
      rcases List.mem_cons.1 ht with h1 | h1
      · rw [h1]; exact ⟨u, hx⟩
      · exact hb t h1

theorem rangeAll_eq (report : Nat → Config → Option String) (l : List (String × Config))
    (i : Nat) :
    rangeAll report l i = (l.enumFrom i).map (fun e => (e.2.2, report e.1 e.2.2)) := by
  induction l generalizing i with
  | nil => rfl
  | cons e l ih =>
    obtain ⟨k, cfg⟩ := e
    simp [rangeAll, List.enumFrom, ih]

theorem rangeAll_map_fst (report : Nat → Config → Option String) (l : List (String × Config))
    (i : Nat) : (rangeAll report l i).map Prod.fst = l.map Prod.snd := by
  induction l generalizing i with
  | nil => rfl
  | cons e l ih =>
    obtain ⟨k, cfg⟩ := e
    simp [rangeAll, ih]

/-! ## Theorems on the configuration loader -/

/-- C5: when the file is read and parsed into sections of distinct names whose
urls all parse, `getConfigs` returns no error and a map with as many entries
as there are sections, whose keys are the section names, and in which the
descriptor under each section name has the host of that section's url as
`Address` and its scheme as `Scheme`. -/
theorem getConfigs_wellformed (env : Env) (data : String) (sections : List Section)
    (hread : env.ReadFile (env.Home ++ "/.cnodes") = .ok data)
    (hload : env.Load data = .ok sections)
    (hnodup : (sections.map Section.Name).Nodup)
    (hvalid : ∀ s ∈ sections, ∃ u, env.Parse (s.Key sections "url") = .ok u) :
    (getConfigs env).2 = none ∧
      (getConfigs env).1.length = sections.length ∧
      (getConfigs env).1.map Prod.fst = sections.map Section.Name ∧
      ∀ s ∈ sections, ∀ u, env.Parse (s.Key sections "url") = .ok u →
        ∃ c, mapFind (getConfigs env).1 s.Name = some c ∧
          c.Address = u.Host ∧ c.Scheme = u.Scheme := by
  have hg : getConfigs env = getConfigsSections env sections := by
    simp only [getConfigs, hread, hload]
  rw [hg]
  obtain ⟨h1, h2, h3, h4⟩ := getConfigsSections_ok env sections hnodup hvalid
  exact ⟨h1, h2, h3, fun s hs u hu => ⟨descriptor env u, h4 s hs u hu, rfl, rfl⟩⟩

/-- Witness of C5: a file of two sections. -/
theorem getConfigs_wellformed_witness :
    (getConfigs (goEnv [⟨"dc1", [("url", "http://consul-dc1.example.com:8500")]⟩,
        ⟨"dc2", [("token", "x"), ("url", "https://10.1.2.3:8501/ui")]⟩])).2 = none ∧
      (getConfigs (goEnv [⟨"dc1", [("url", "http://consul-dc1.example.com:8500")]⟩,
        ⟨"dc2", [("token", "x"), ("url", "https://10.1.2.3:8501/ui")]⟩])).1.length = 2 ∧
      (getConfigs (goEnv [⟨"dc1", [("url", "http://consul-dc1.example.com:8500")]⟩,
        ⟨"dc2", [("token", "x"), ("url", "https://10.1.2.3:8501/ui")]⟩])).1.map Prod.fst =
          ["dc1", "dc2"] :=
  have h := getConfigs_wellformed
    (goEnv [⟨"dc1", [("url", "http://consul-dc1.example.com:8500")]⟩,
      ⟨"dc2", [("token", "x"), ("url", "https://10.1.2.3:8501/ui")]⟩]) ""
    [⟨"dc1", [("url", "http://consul-dc1.example.com:8500")]⟩,
      ⟨"dc2", [("token", "x"), ("url", "https://10.1.2.3:8501/ui")]⟩]
    (by decide) rfl (by decide)
    (by
      intro s hs
      simp only [List.mem_cons, List.mem_singleton, List.not_mem_nil, or_false] at hs
      rcases hs with h | h
      · exact ⟨⟨"http", "consul-dc1.example.com:8500"⟩, by rw [h]; decide⟩
      · exact ⟨⟨"https", "10.1.2.3:8501"⟩, by rw [h]; decide⟩)
  ⟨h.1, h.2.1, h.2.2.1⟩

set_option maxRecDepth 100000 in
/-- Counterexample to C6: for the section "dc1" whose url is "::::not a url",
`getConfigs` returns an error whose message holds the url value and not the
name of the section. -/
theorem getConfigs_error_omits_section_name :
    (getConfigs (goEnv [⟨"dc1", [("url", "::::not a url")]⟩])).2 =
        some "failed to parse consulURL \"::::not a url\": parse \"::::not a url\": missing protocol scheme" ∧
      ¬ ("dc1".data <:+:
        "failed to parse consulURL \"::::not a url\": parse \"::::not a url\": missing protocol scheme".data) ∧
      "::::not a url".data <:+:
        "failed to parse consulURL \"::::not a url\": parse \"::::not a url\": missing protocol scheme".data := by
  decide

/-- C6, amended: when the file is read and parsed and the url of some section
does not parse, `getConfigs` returns an error, that of the first such section
in file order: its message is "failed to parse consulURL ", the quoted url
value of that section, ": " and the message of the url parser. It is a
function of the url value alone; the name of the section is not part of it. -/
theorem getConfigs_invalid_url (env : Env) (data : String) (sections : List Section)
    (hread : env.ReadFile (env.Home ++ "/.cnodes") = .ok data)
    (hload : env.Load data = .ok sections)
    (hbad : ∃ s ∈ sections, ∃ err, env.Parse (s.Key sections "url") = .error err) :
    ∃ before s after err, sections = before ++ s :: after ∧
      (∀ t ∈ before, ∃ u, env.Parse (t.Key sections "url") = .ok u) ∧
      env.Parse (s.Key sections "url") = .error err ∧
      (getConfigs env).2 =
        some ("failed to parse consulURL " ++ env.Quote (s.Key sections "url") ++ ": " ++ err) := by
  have hg : getConfigs env = getConfigsSections env sections := by
    simp only [getConfigs, hread, hload]
  obtain ⟨before, s, after, err, heq, hb, he⟩ := exists_first_invalid env sections sections hbad
  refine ⟨before, s, after, err, heq, hb, he, ?_⟩
  have hloop := getConfigsLoop_error env sections before after s err [] hb he
  rw [← heq] at hloop
  rw [hg]
  exact hloop

/-- Witness of C6, amended: a valid section followed by an invalid one. -/
theorem getConfigs_invalid_url_witness :
    ∃ before s after err,
      [(⟨"dc1", [("url", "http://c1:8500")]⟩ : Section), ⟨"dc2", [("url", "::::not a url")]⟩] =
        before ++ s :: after ∧
      (∀ t ∈ before, ∃ u, urlParse (t.Key
          [⟨"dc1", [("url", "http://c1:8500")]⟩, ⟨"dc2", [("url", "::::not a url")]⟩] "url") = .ok u) ∧
      urlParse (s.Key
          [⟨"dc1", [("url", "http://c1:8500")]⟩, ⟨"dc2", [("url", "::::not a url")]⟩] "url") = .error err ∧
      (getConfigs (goEnv [⟨"dc1", [("url", "http://c1:8500")]⟩,
          ⟨"dc2", [("url", "::::not a url")]⟩])).2 =
        some ("failed to parse consulURL " ++ strconvQuote (s.Key
          [⟨"dc1", [("url", "http://c1:8500")]⟩, ⟨"dc2", [("url", "::::not a url")]⟩] "url") ++ ": " ++ err) :=
  getConfigs_invalid_url
    (goEnv [⟨"dc1", [("url", "http://c1:8500")]⟩, ⟨"dc2", [("url", "::::not a url")]⟩]) ""
    [⟨"dc1", [("url", "http://c1:8500")]⟩, ⟨"dc2", [("url", "::::not a url")]⟩]
    (by decide) rfl
    ⟨⟨"dc2", [("url", "::::not a url")]⟩, by decide,
      "parse \"::::not a url\": missing protocol scheme", by decide⟩

/-- Counterexample to C7: for a section without a url key, and for one whose
url value is empty, `getConfigs` returns no error and records a descriptor of
empty address and scheme under the name of the section. -/
theorem getConfigs_records_empty_descriptor :
    getConfigs (goEnv [⟨"dc1", [("token", "x")]⟩]) = ([("dc1", ⟨"", "", "", ""⟩)], none) ∧
      getConfigs (goEnv [⟨"dc1", [("url", "")]⟩]) = ([("dc1", ⟨"", "", "", ""⟩)], none) ∧
      getConfigs (goEnv [⟨"DEFAULT", []⟩, ⟨"dc1", [("url", "http://c1:8500")]⟩]) =
        ([("DEFAULT", ⟨"", "", "", ""⟩), ("dc1", ⟨"c1:8500", "http", "", ""⟩)], none) := by
  decide

/-- The parent lookup at work: a section without a url key whose name extends
with a dot the name of a section holding one is given the url of that
section. -/
theorem getConfigs_inherits_parent_url :
    getConfigs (goEnv [⟨"dc1", [("url", "http://c1:8500")]⟩, ⟨"dc1.eu", []⟩]) =
      ([("dc1", ⟨"c1:8500", "http", "", ""⟩), ("dc1.eu", ⟨"c1:8500", "http", "", ""⟩)], none) := by
  decide

/-- C7, amended: a section whose url value is empty, or that has no url key
and no parent section (a section named by the part of its name before a dot)
holding one, is not an error. Its url value is the empty string, which the url
parser accepts as the url of empty scheme and host; so, the names of the
sections being distinct and the non-empty urls valid, `getConfigs` returns no
error and records under the name of that section a descriptor of empty address
and scheme. -/
theorem getConfigs_missing_url (env : Env) (data : String) (sections : List Section)
    (s : Section)
    (hread : env.ReadFile (env.Home ++ "/.cnodes") = .ok data)
    (hload : env.Load data = .ok sections)
    (hempty : env.Parse "" = .ok ⟨"", ""⟩)
    (hnodup : (sections.map Section.Name).Nodup)
    (hvalid : ∀ t ∈ sections, t.Key sections "url" ≠ "" →
      ∃ u, env.Parse (t.Key sections "url") = .ok u)
    (hs : s ∈ sections)
    (hurl : s.keys.lookup "url" = some "" ∨
      (s.keys.lookup "url" = none ∧
        ∀ p ∈ parentNames s.Name.data, ∀ parent, GetSection sections (String.mk p) = some parent →
          parent.keys.lookup "url" = none)) :
    s.Key sections "url" = "" ∧ (getConfigs env).2 = none ∧
      mapFind (getConfigs env).1 s.Name =
        some { env.DefaultConfig with Address := "", Scheme := "" } := by
  have hkey : s.Key sections "url" = "" := by
    unfold Section.Key Section.GetKey
    rcases hurl with h | ⟨h, hp⟩
    · rw [h]
    · rw [h]
      have hnone : (parentNames s.Name.data).findSome? (fun p =>
          match GetSection sections (String.mk p) with
          | some parent => parent.keys.lookup "url"
          | none => none) = none := by
        rw [List.findSome?_eq_none_iff]
        intro p hpm
        cases hg : GetSection sections (String.mk p) with
        | none => rfl
        | some parent => exact hp p hpm parent hg
      rw [hnone]
  have hg : getConfigs env = getConfigsSections env sections := by
    simp only [getConfigs, hread, hload]
  have hall : ∀ t ∈ sections, ∃ u, env.Parse (t.Key sections "url") = .ok u := by
    intro t ht
    by_cases h : t.Key sections "url" = ""
    · exact ⟨⟨"", ""⟩, by rw [h]; exact hempty⟩
    · exact hvalid t ht h
  obtain ⟨h1, -, -, h4⟩ := getConfigsSections_ok env sections hnodup hall
  rw [hg]
  exact ⟨hkey, h1, h4 s hs ⟨"", ""⟩ (by rw [hkey]; exact hempty)⟩

/-- Witness of C7, amended: the section "dc1.eu" without keys, whose parent
"dc1" holds no url either, after a section "DEFAULT" without keys and before a
section with a url. -/
theorem getConfigs_missing_url_witness :
    (getConfigs (goEnv [⟨"DEFAULT", []⟩, ⟨"dc1", [("token", "x")]⟩, ⟨"dc1.eu", []⟩,
        ⟨"dc2", [("url", "http://c2:8500")]⟩])).2 = none ∧
      mapFind (getConfigs (goEnv [⟨"DEFAULT", []⟩, ⟨"dc1", [("token", "x")]⟩, ⟨"dc1.eu", []⟩,
        ⟨"dc2", [("url", "http://c2:8500")]⟩])).1 "dc1.eu" = some ⟨"", "", "", ""⟩ :=
  (getConfigs_missing_url
    (goEnv [⟨"DEFAULT", []⟩, ⟨"dc1", [("token", "x")]⟩, ⟨"dc1.eu", []⟩,
      ⟨"dc2", [("url", "http://c2:8500")]⟩]) ""
    [⟨"DEFAULT", []⟩, ⟨"dc1", [("token", "x")]⟩, ⟨"dc1.eu", []⟩,
      ⟨"dc2", [("url", "http://c2:8500")]⟩] ⟨"dc1.eu", []⟩
    (by decide) rfl (by decide) (by decide)
    (by
      intro t ht hne
      simp only [List.mem_cons, List.mem_singleton, List.not_mem_nil, or_false] at ht
      rcases ht with h | h | h | h
      · exact absurd (by rw [h]; decide) hne
      · exact absurd (by rw [h]; decide) hne
      · exact absurd (by rw [h]; decide) hne
      · exact ⟨⟨"http", "c2:8500"⟩, by rw [h]; decide⟩)
    (by decide)
    (Or.inr ⟨rfl, by
      intro p hp parent hg
      have hpn : parentNames "dc1.eu".data = ["dc1".data] := by decide
      rw [hpn, List.mem_singleton] at hp
      have hsec : GetSection [⟨"DEFAULT", []⟩, ⟨"dc1", [("token", "x")]⟩, ⟨"dc1.eu", []⟩,
          ⟨"dc2", [("url", "http://c2:8500")]⟩] (String.mk "dc1".data) =
          some ⟨"dc1", [("token", "x")]⟩ := by decide
      rw [hp, hsec] at hg
      rw [← Option.some.inj hg]
      decide⟩)).2

/-! ## Theorems on the invocation modes -/

/-- C8: with the flag `--all`, the flags parsed and the configurations loaded,
`main` calls `printNodes` once for each entry of the map, in the order `range`
visits them, whatever the calls return: the `i`-th call is made on the `i`-th
entry visited and its error is recorded and dropped. The run ends without a
fatal message, and it is the same for every value of `--profile`. -/
theorem main_all (env : Env) (opts : Options) (configs : ConfigMap)
    (order : ConfigMap → List (String × Config)) (report : Nat → Config → Option String)
    (hall : opts.All = true)
    (hconfigs : getConfigs env = (configs, none))
    (horder : (order configs).Perm configs) :
    (main (.ok opts) env order report).fatal = none ∧
      (main (.ok opts) env order report).calls =
        ((order configs).enumFrom 0).map (fun e => (e.2.2, report e.1 e.2.2)) ∧
      (main (.ok opts) env order report).calls.map Prod.fst = (order configs).map Prod.snd ∧
      ((main (.ok opts) env order report).calls.map Prod.fst).Perm (configs.map Prod.snd) ∧
      (main (.ok opts) env order report).calls.length = configs.length ∧
      ∀ profile : String,
        main (.ok { opts with Profile := profile }) env order report =
          main (.ok opts) env order report := by
  have hm : ∀ o : Options, o.All = true →
      main (.ok o) env order report = ⟨rangeAll report (order configs) 0, none⟩ := by
    intro o ho
    simp only [main, hconfigs, ho, if_true]
  rw [hm opts hall]
  refine ⟨rfl, rangeAll_eq report (order configs) 0, rangeAll_map_fst report (order configs) 0,
    ?_, ?_, ?_⟩
  · show ((rangeAll report (order configs) 0).map Prod.fst).Perm (configs.map Prod.snd)
    rw [rangeAll_map_fst]
    exact horder.map Prod.snd
  · show (rangeAll report (order configs) 0).length = configs.length
    have h := congrArg List.length (rangeAll_map_fst report (order configs) 0)
    rw [List.length_map, List.length_map] at h
    rw [h]
    exact horder.length_eq
  · intro profile
    exact hm { opts with Profile := profile } hall

/-- Witness of C8: two profiles, visited in the reverse of the order of the
file, the first report failing: both calls are made and the run is not fatal. -/
theorem main_all_witness :
    (main (.ok ⟨"DEFAULT", true⟩)
        (goEnv [⟨"dc1", [("url", "http://c1:8500")]⟩, ⟨"dc2", [("url", "http://c2:8500")]⟩])
        List.reverse (fun i _ => if i = 0 then some "failed to fetch consul nodes: timeout" else none)) =
      ⟨[(⟨"c2:8500", "http", "", ""⟩, some "failed to fetch consul nodes: timeout"),
        (⟨"c1:8500", "http", "", ""⟩, none)], none⟩ :=
  have h := main_all
    (goEnv [⟨"dc1", [("url", "http://c1:8500")]⟩, ⟨"dc2", [("url", "http://c2:8500")]⟩])
    ⟨"DEFAULT", true⟩
    [("dc1", ⟨"c1:8500", "http", "", ""⟩), ("dc2", ⟨"c2:8500", "http", "", ""⟩)]
    List.reverse (fun i _ => if i = 0 then some "failed to fetch consul nodes: timeout" else none)
    rfl (by decide) (List.reverse_perm _)
  Run.ext h.2.1 h.1

/-- C9: without the flag `--all`, the flags parsed and the configurations
loaded, `main` calls `printNodes` exactly once, on the descriptor stored under
the profile name, which is the zero-value descriptor when the name is not a
key of the map (the lookup raises nothing); the run is fatal exactly when that
call returns an error, with that error as message. -/
theorem main_single (env : Env) (opts : Options) (configs : ConfigMap)
    (order : ConfigMap → List (String × Config)) (report : Nat → Config → Option String)
    (hall : opts.All = false)
    (hconfigs : getConfigs env = (configs, none)) :
    (main (.ok opts) env order report).calls =
        [(mapGet configs opts.Profile, report 0 (mapGet configs opts.Profile))] ∧
      (main (.ok opts) env order report).fatal = report 0 (mapGet configs opts.Profile) ∧
      ((main (.ok opts) env order report).fatal ≠ none ↔
        report 0 (mapGet configs opts.Profile) ≠ none) ∧
      (∀ c, mapFind configs opts.Profile = some c → mapGet configs opts.Profile = c) ∧
      (opts.Profile ∉ configs.map Prod.fst → mapGet configs opts.Profile = Config.zero) := by
  have hm : main (.ok opts) env order report =
      ⟨[(mapGet configs opts.Profile, report 0 (mapGet configs opts.Profile))],
        report 0 (mapGet configs opts.Profile)⟩ := by
    simp only [main, hconfigs, hall]
    cases h : report 0 (mapGet configs opts.Profile) <;> simp
  rw [hm]
  refine ⟨rfl, rfl, Iff.rfl, ?_, ?_⟩
  · intro c hc
    simp only [mapGet, hc]
  · intro hnot
    have hnone : mapFind configs opts.Profile = none := by
      unfold mapFind
      rw [List.lookup_eq_none_iff]
      intro e he
      simp only [bne_iff_ne, ne_eq]
      intro hk
      exact hnot (List.mem_map.2 ⟨e, he, hk.symm⟩)
    simp only [mapGet, hnone]

/-- Witness of C9: the default profile name against a file that has no section
of that name: one call, on the zero-value descriptor, whose error is fatal. -/
theorem main_single_witness :
    (main (.ok ⟨"DEFAULT", false⟩) (goEnv [⟨"dc1", [("url", "http://c1:8500")]⟩]) id
        (fun _ cfg => if cfg.Address = "" then some "failed to fetch consul nodes: no host" else none)) =
      ⟨[(Config.zero, some "failed to fetch consul nodes: no host")],
        some "failed to fetch consul nodes: no host"⟩ :=
  have h := main_single (goEnv [⟨"dc1", [("url", "http://c1:8500")]⟩]) ⟨"DEFAULT", false⟩
    [("dc1", ⟨"c1:8500", "http", "", ""⟩)] id
    (fun _ cfg => if cfg.Address = "" then some "failed to fetch consul nodes: no host" else none)
    rfl (by decide)
  Run.ext h.1 h.2.1

end Cnodes
